import Mathlib

/-!
Verification model of the local-doctor-system pillbox repository.

The Python sources under verification are shallowly embedded as Lean
definitions:

* `simple_models.py` — the medication data model and the
  `MedicationRecorder` engine (`process_sensor_data`,
  `check_missed_medications`, `get_medication_adherence_rate`,
  `get_nearest_scheduled_time`, `determine_medication_status`), with the
  SQLite store modelled as a list of records (`save_record` models
  `INSERT OR REPLACE` keyed on the primary key `id`; `get_recent_records`
  models `SELECT * ... ORDER BY created_at DESC LIMIT ?`).
* `simple_host_sender.py` — the receive-loop line framer, the
  JSON-message dispatcher with its queue pushes, and
  `send_schedule_config`.
* `esp32_discovery.py` — the UDP discovery retry loop.

External effects (wall clock, sockets, `json.loads`, `uuid.uuid4`) are
modelled as explicit parameters or as small deterministic stand-ins,
each documented at its definition.
-/

namespace Pillbox

/-! ## Small Python-semantics helpers -/

/-- Absolute difference of two naturals (models `abs(a - b)` on integral
quantities). -/
def absDiffNat (a b : Nat) : Nat := max a b - min a b

/-- Lexicographic string comparison on code points; models Python `<=` on
`str` (and SQLite's default ordering of TEXT values). -/
def charsLe : List Char → List Char → Bool
  | [], _ => true
  | _ :: _, [] => false
  | a :: as, b :: bs => if a = b then charsLe as bs else decide (a < b)

/-- `pyStrLe a b` models the Python expression `a <= b` on strings. -/
def pyStrLe (a b : String) : Bool := charsLe a.data b.data

/-- Characters removed by Python `str.strip()` (ASCII whitespace; the
Unicode extras never occur in this protocol). -/
def isPySpace (c : Char) : Bool :=
  c = ' ' || c = '\t' || c = '\n' || c = '\r' || c = '\x0b' || c = '\x0c'

/-- Python `str.strip()` on a character list. -/
def pyStripChars (l : List Char) : List Char :=
  ((l.dropWhile isPySpace).reverse.dropWhile isPySpace).reverse

/-- Python `str.strip()`. -/
def pyStrip (s : String) : String := String.mk (pyStripChars s.data)

/-- Python `s.startswith(pre)`. -/
def strStartsWith (s pre : String) : Bool := pre.data.isPrefixOf s.data

/-- Python `s.isdigit()`: nonempty and all digit characters. -/
def pyIsDigit (s : String) : Bool := !s.data.isEmpty && s.data.all Char.isDigit

/-- Numeric value of a decimal digit character. -/
def dval (c : Char) : Nat := c.toNat - '0'.toNat

/-- Value of a nonempty all-digit character list, else `none`. -/
def digitsVal : List Char → Option Nat
  | [] => none
  | l => if l.all Char.isDigit then some (l.foldl (fun n c => 10 * n + dval c) 0) else none

/-- Model of Python `int(s)` on a character list: optional sign followed by
digits (whitespace and underscore forms never occur in this protocol). -/
def pyInt : List Char → Option Int
  | '+' :: rest => (digitsVal rest).map Int.ofNat
  | '-' :: rest => (digitsVal rest).map fun n => -(n : Int)
  | l => (digitsVal l).map Int.ofNat

/-- Split a character list on a separator character (Python `str.split(sep)`). -/
def splitChar (c : Char) : List Char → List (List Char)
  | [] => [[]]
  | a :: as =>
    if a = c then [] :: splitChar c as
    else
      match splitChar c as with
      | g :: gs => (a :: g) :: gs
      | [] => [[a]]

/-- Guarded hour/minute pair: `datetime` accepts hours 0–23 and minutes
0–59 and raises `ValueError` otherwise. -/
def hmGuard (h m : Nat) : Option (Nat × Nat) :=
  if h ≤ 23 && m ≤ 59 then some (h, m) else none

/-- Model of `datetime.strptime(s, "%H:%M")`: one or two digits, a colon,
one or two digits, nothing else; hour 0–23, minute 0–59.  Returns the
parsed hour/minute or `none` where Python raises `ValueError`. -/
def parseHM (s : String) : Option (Nat × Nat) :=
  match s.data with
  | [a, ':', b] =>
    if a.isDigit && b.isDigit then hmGuard (dval a) (dval b) else none
  | [a, ':', b, c] =>
    if a.isDigit && b.isDigit && c.isDigit then hmGuard (dval a) (10 * dval b + dval c) else none
  | [a, b, ':', c] =>
    if a.isDigit && b.isDigit && c.isDigit then hmGuard (10 * dval a + dval b) (dval c) else none
  | [a, b, ':', c, d] =>
    if a.isDigit && b.isDigit && c.isDigit && d.isDigit then
      hmGuard (10 * dval a + dval b) (10 * dval c + dval d)
    else none
  | _ => none

/-- Model of `hour, minute = map(int, time_str.split(':'))` followed by
`current_time.replace(hour=hour, minute=minute, ...)` as used by
`check_missed_medications`: exactly two colon-separated integer fields,
hour 0–23 and minute 0–59; any failure raises `ValueError`, which the
sweep catches and skips (`none` here). -/
def parseColonTime (t : String) : Option (Nat × Nat) :=
  match splitChar ':' t.data with
  | [p1, p2] =>
    match pyInt p1, pyInt p2 with
    | some h, some m =>
      if 0 ≤ h && h ≤ 23 && 0 ≤ m && m ≤ 59 then some (h.toNat, m.toNat) else none
    | _, _ => none
  | _ => none

/-! ## Wall-clock model -/

/-- A `datetime.datetime` value at second resolution: the calendar date is
kept as its `%Y-%m-%d` string (the engine only compares and prints it),
plus hour/minute/second of the day.  Sub-second digits, which only shift
`isoformat` suffixes, are not modelled. -/
structure PyDateTime where
  date : String
  hour : Nat
  minute : Nat
  second : Nat
deriving DecidableEq

/-- Zero-padded two-digit rendering used by `strftime`. -/
def pad2 (n : Nat) : String := if n < 10 then "0" ++ Nat.repr n else Nat.repr n

/-- `dt.strftime("%H:%M")`. -/
def strftimeHM (dt : PyDateTime) : String := pad2 dt.hour ++ ":" ++ pad2 dt.minute

/-- `dt.isoformat()` at second resolution, e.g. `2024-10-01T08:05:00`. -/
def isoformat (dt : PyDateTime) : String :=
  dt.date ++ "T" ++ pad2 dt.hour ++ ":" ++ pad2 dt.minute ++ ":" ++ pad2 dt.second

/-- Seconds elapsed since midnight. -/
def timeOfDaySecs (dt : PyDateTime) : Nat :=
  dt.hour * 3600 + dt.minute * 60 + dt.second

/-! ## Data model (`simple_models.py`) -/

/-- `MedicationStatus` enum. -/
inductive MedicationStatus where
  | pending
  | taken
  | missed
  | skipped
deriving DecidableEq

/-- `SimpleMedicationSchedule` dataclass. -/
structure SimpleMedicationSchedule where
  id : String
  medication_id : String
  times_per_day : Int
  dosage_count : Int
  schedule_times : List String
  start_date : String
  end_date : String
  notes : String := ""
  is_active : Bool := true
deriving DecidableEq

/-- `SimpleMedicationRecord` dataclass.  `scheduled_time` is `Optional` in
effect: `process_sensor_data` assigns it the result of
`_get_nearest_scheduled_time`, which can be `None`. -/
structure SimpleMedicationRecord where
  id : String
  schedule_id : String
  medication_id : String
  scheduled_time : Option String
  actual_time : Option String
  status : MedicationStatus
  sensor_confirmed : Bool := false
  notes : String := ""
  created_at : String := ""
deriving DecidableEq

/-- The fixed `MEDICATIONS` table M0–M9. -/
def MEDICATIONS : List (String × String) :=
  [("M0", "Medication M0"), ("M1", "Medication M1"), ("M2", "Medication M2"),
   ("M3", "Medication M3"), ("M4", "Medication M4"), ("M5", "Medication M5"),
   ("M6", "Medication M6"), ("M7", "Medication M7"), ("M8", "Medication M8"),
   ("M9", "Medication M9")]

/-- `get_medication_name`. -/
def get_medication_name (medication_id : String) : String :=
  match MEDICATIONS.lookup medication_id with
  | some n => n
  | none => "Unknown Medication " ++ medication_id

/-! ## Store model (`SimpleDataManager` over SQLite)

The `medication_records` table is modelled as a `List` of records in
insertion order. -/

/-- `save_record`: `INSERT OR REPLACE` keyed on the primary key `id` —
replaces the row with the same `id` if one exists, otherwise appends. -/
def save_record (store : List SimpleMedicationRecord) (r : SimpleMedicationRecord) :
    List SimpleMedicationRecord :=
  if store.any (fun s => s.id == r.id) then
    store.map (fun s => if s.id == r.id then r else s)
  else store ++ [r]

/-- `get_recent_records(limit)`: `ORDER BY created_at DESC LIMIT ?`.  The
descending sort on the TEXT column is modelled by insertion sort under the
code-point order; ties keep a fixed deterministic order (SQLite leaves the
order of ties unspecified). -/
def get_recent_records (store : List SimpleMedicationRecord) (limit : Nat) :
    List SimpleMedicationRecord :=
  (List.insertionSort (fun a b => pyStrLe b.created_at a.created_at = true) store).take limit

/-- Longest `id` among stored records. -/
def maxIdLen (store : List SimpleMedicationRecord) : Nat :=
  store.foldr (fun r n => max r.id.length n) 0

/-- Model of `str(uuid.uuid4())`: a fresh identifier distinct from every
id already in the store, realised deterministically as a string strictly
longer than any stored id. -/
def freshId (store : List SimpleMedicationRecord) : String :=
  String.mk (List.replicate (maxIdLen store + 1) 'u')

/-! ## MedicationRecorder -/

/-- `_get_nearest_scheduled_time` inner loop: `nearest_time`/`min_diff`
accumulators; `min_diff` starts at `float('inf')`, modelled as `none`.
Each iteration parses the schedule entry and the current `%H:%M` string
with `strptime`; either failure skips the entry (`continue`). -/
def nearestLoop (cur : Option (Nat × Nat)) :
    List String → Option String → Option Nat → Option String × Option Nat
  | [], best, minDiff => (best, minDiff)
  | t :: ts, best, minDiff =>
    match parseHM t, cur with
    | some (h, m), some (ch, cm) =>
      let diff := 60 * absDiffNat (h * 60 + m) (ch * 60 + cm)
      if (match minDiff with | none => true | some d => diff < d) then
        nearestLoop cur ts (some t) (some diff)
      else nearestLoop cur ts best minDiff
    | _, _ => nearestLoop cur ts best minDiff

/-- `_get_nearest_scheduled_time(schedule, current_time)`.  The final
`nearest_time or (schedule.schedule_times[0] if ... else None)` is the
`orElse`/`head?` below: a successfully parsed entry is never the empty
string, so Python's `or` reads as `Option` choice here. -/
def get_nearest_scheduled_time (schedule : SimpleMedicationSchedule)
    (current_time : PyDateTime) : Option String :=
  match (nearestLoop (parseHM (strftimeHM current_time)) schedule.schedule_times none none).1 with
  | some t => some t
  | none => schedule.schedule_times.head?

/-- `_determine_medication_status`: classifies the deviation from the
nearest scheduled time — every branch of the source returns `TAKEN`.
The float division `total_seconds() / 60` is modelled in `ℚ`. -/
def determine_medication_status (schedule : SimpleMedicationSchedule)
    (actual_time : PyDateTime) : MedicationStatus :=
  match get_nearest_scheduled_time schedule actual_time with
  | none => .taken
  | some nearest =>
    match parseHM nearest with
    | none => .taken
    | some (h, m) =>
      let time_diff : ℚ :=
        (absDiffNat (timeOfDaySecs actual_time) ((h * 60 + m) * 60) : ℚ) / 60
      if time_diff ≤ 15 then .taken
      else if time_diff ≤ 60 then .taken
      else .taken

/-- `process_sensor_data(compartment_id, opened_time)`.  The ambient wall
clock `datetime.now()` is the explicit parameter `now`; the active
schedules read from the store are the parameter `schedules`
(`get_active_schedules` filters `is_active`).  Returns the created record
(if any) and the updated record store. -/
def process_sensor_data (schedules : List SimpleMedicationSchedule)
    (store : List SimpleMedicationRecord) (compartment_id : String)
    (opened_time : Option String) (now : PyDateTime) :
    Option SimpleMedicationRecord × List SimpleMedicationRecord :=
  let opened := opened_time.getD (strftimeHM now)
  let active := schedules.filter (fun s => s.is_active)
  let medication_id :=
    if pyIsDigit compartment_id then "M" ++ compartment_id else compartment_id
  match active.find? (fun s => s.medication_id == medication_id) with
  | none => (none, store)
  | some target_schedule =>
    let status := determine_medication_status target_schedule now
    let record : SimpleMedicationRecord :=
      { id := freshId store
        schedule_id := target_schedule.id
        medication_id := target_schedule.medication_id
        scheduled_time := get_nearest_scheduled_time target_schedule now
        actual_time := some opened
        status := status
        sensor_confirmed := true
        notes := "Compartment " ++ compartment_id ++ " opened at " ++ opened
        created_at := isoformat now }
    (some record, save_record store record)

/-- `_has_recent_record(schedule, time_str, date_str)`: scans the 100 most
recent records for one matching the schedule id, the scheduled time and
the calendar day prefix of `created_at`. -/
def has_recent_record (store : List SimpleMedicationRecord)
    (schedule : SimpleMedicationSchedule) (time_str date_str : String) : Bool :=
  (get_recent_records store 100).any fun r =>
    r.schedule_id == schedule.id && r.scheduled_time == some time_str &&
      strStartsWith r.created_at date_str

/-- `current_time > scheduled_today + timedelta(minutes=1)` at second
resolution, with `scheduled_today` the same day at `h:m:00`. -/
def dueAt (now : PyDateTime) (h m : Nat) : Bool :=
  decide (timeOfDaySecs now > (h * 60 + m) * 60 + 60)

/-- The `MISSED` record created by the sweep for one scheduled time;
`created_at` is set by `__post_init__` to `datetime.now().isoformat()`. -/
def mkMissedRecord (schedule : SimpleMedicationSchedule) (time_str : String)
    (now : PyDateTime) (id : String) : SimpleMedicationRecord :=
  { id := id
    schedule_id := schedule.id
    medication_id := schedule.medication_id
    scheduled_time := some time_str
    actual_time := none
    status := .missed
    sensor_confirmed := false
    notes := "Missed medication at scheduled time " ++ time_str
    created_at := isoformat now }

/-- Inner loop of `check_missed_medications` over one schedule's time
list, threading the record store and the missed counter. -/
def sweepTimes (schedule : SimpleMedicationSchedule) (now : PyDateTime) :
    List String → List SimpleMedicationRecord × Nat → List SimpleMedicationRecord × Nat
  | [], acc => acc
  | t :: ts, acc =>
    match parseColonTime t with
    | none => sweepTimes schedule now ts acc
    | some (h, m) =>
      if dueAt now h m && !has_recent_record acc.1 schedule t now.date then
        sweepTimes schedule now ts
          (save_record acc.1 (mkMissedRecord schedule t now (freshId acc.1)), acc.2 + 1)
      else sweepTimes schedule now ts acc

/-- Outer loop of `check_missed_medications` over the active schedules. -/
def sweepSchedules (now : PyDateTime) :
    List SimpleMedicationSchedule → List SimpleMedicationRecord × Nat →
    List SimpleMedicationRecord × Nat
  | [], acc => acc
  | sch :: rest, acc => sweepSchedules now rest (sweepTimes sch now sch.schedule_times acc)

/-- `check_missed_medications()`: walks every active schedule and every
scheduled time already more than one minute past, creating a `MISSED`
record when `_has_recent_record` finds none.  Returns the updated store
and `missed_count`. -/
def check_missed_medications (schedules : List SimpleMedicationSchedule)
    (now : PyDateTime) (store : List SimpleMedicationRecord) :
    List SimpleMedicationRecord × Nat :=
  sweepSchedules now (schedules.filter (fun s => s.is_active)) (store, 0)

/-- Records of the 500 most recent whose `created_at` is at or after the
cutoff date string. -/
def recent_of (store : List SimpleMedicationRecord) (cutoff_date : String) :
    List SimpleMedicationRecord :=
  (get_recent_records store 500).filter fun r => pyStrLe cutoff_date r.created_at

/-- `get_medication_adherence_rate(days)`.  The cutoff string
`(datetime.now() - timedelta(days=days)).date().strftime('%Y-%m-%d')` is
computed by the external datetime library and passed in as `cutoff_date`;
the float arithmetic is modelled in `ℚ`. -/
def get_medication_adherence_rate (store : List SimpleMedicationRecord)
    (cutoff_date : String) : ℚ :=
  let recent_records := recent_of store cutoff_date
  if recent_records.isEmpty then 0
  else
    let taken_count := recent_records.countP fun r => r.status == MedicationStatus.taken
    let total_count := recent_records.length
    if 0 < total_count then ((taken_count : ℚ) / (total_count : ℚ)) * 100 else 0

/-! ## Lemmas about the store and the missed-dose sweep -/

theorem length_freshId (store : List SimpleMedicationRecord) :
    (freshId store).length = maxIdLen store + 1 := by
  simp [freshId, String.length]

theorem id_length_le_maxIdLen {r : SimpleMedicationRecord}
    {store : List SimpleMedicationRecord} (h : r ∈ store) :
    r.id.length ≤ maxIdLen store := by
  induction store with
  | nil => cases h
  | cons a as ih =>
    rcases List.mem_cons.1 h with rfl | h'
    · exact le_max_left _ _
    · exact le_trans (ih h') (le_max_right _ _)

theorem freshId_not_mem_id {r : SimpleMedicationRecord}
    {store : List SimpleMedicationRecord} (h : r ∈ store) : r.id ≠ freshId store := by
  intro he
  have h1 := id_length_le_maxIdLen h
  rw [he, length_freshId] at h1
  omega

theorem save_record_fresh (store : List SimpleMedicationRecord)
    (r : SimpleMedicationRecord) (h : r.id = freshId store) :
    save_record store r = store ++ [r] := by
  have hany : store.any (fun s => s.id == r.id) = false := by
    rw [List.any_eq_false]
    intro s hs
    simp only [beq_iff_eq]
    exact fun he => freshId_not_mem_id hs (he.trans h)
  unfold save_record
  rw [hany]
  simp

theorem sweepTimes_extends (sch : SimpleMedicationSchedule) (now : PyDateTime) :
    ∀ (ts : List String) (store : List SimpleMedicationRecord) (c : Nat),
      ∃ new c', sweepTimes sch now ts (store, c) = (store ++ new, c') := by
  intro ts
  induction ts with
  | nil => exact fun store c => ⟨[], c, by simp [sweepTimes]⟩
  | cons t0 ts ih =>
    intro store c
    cases hp : parseColonTime t0 with
    | none => simpa only [sweepTimes, hp] using ih store c
    | some hm =>
      obtain ⟨h, m⟩ := hm
      simp only [sweepTimes, hp]
      split
      · rw [save_record_fresh _ _ rfl]
        obtain ⟨new2, c2, heq⟩ :=
          ih (store ++ [mkMissedRecord sch t0 now (freshId store)]) (c + 1)
        exact ⟨mkMissedRecord sch t0 now (freshId store) :: new2, c2, by
          rw [heq, List.append_assoc]; rfl⟩
      · exact ih store c

theorem sweepSchedules_extends (now : PyDateTime) :
    ∀ (schs : List SimpleMedicationSchedule) (store : List SimpleMedicationRecord) (c : Nat),
      ∃ new c', sweepSchedules now schs (store, c) = (store ++ new, c') := by
  intro schs
  induction schs with
  | nil => exact fun store c => ⟨[], c, by simp [sweepSchedules]⟩
  | cons s0 ss ih =>
    intro store c
    obtain ⟨new1, c1, heq1⟩ := sweepTimes_extends s0 now s0.schedule_times store c
    obtain ⟨new2, c2, heq2⟩ := ih (store ++ new1) c1
    exact ⟨new1 ++ new2, c2, by
      simp only [sweepSchedules, heq1, heq2, List.append_assoc]⟩

/-- A record that would satisfy the `_has_recent_record` scan for the key
`(schedule id, scheduled time, calendar day)`. -/
def Matches (r : SimpleMedicationRecord) (sid t d : String) : Prop :=
  r.schedule_id = sid ∧ r.scheduled_time = some t ∧ strStartsWith r.created_at d = true

/-- Some record in the store matches the key. -/
def HasMatch (store : List SimpleMedicationRecord) (sid t d : String) : Prop :=
  ∃ r ∈ store, Matches r sid t d

/-- The sweep's due test for one schedule-time string: it parses and the
scheduled moment is more than one minute past. -/
def isDueStr (now : PyDateTime) (t : String) : Bool :=
  match parseColonTime t with
  | some (h, m) => dueAt now h m
  | none => false

theorem isPrefixOf_self_append (l t : List Char) : l.isPrefixOf (l ++ t) = true := by
  induction l with
  | nil => simp [List.isPrefixOf]
  | cons a as ih => simp [List.isPrefixOf, ih]

theorem strStartsWith_append (pre rest : String) :
    strStartsWith (pre ++ rest) pre = true := by
  unfold strStartsWith
  rw [show (pre ++ rest).data = pre.data ++ rest.data from rfl]
  exact isPrefixOf_self_append _ _

theorem strStartsWith_isoformat (now : PyDateTime) :
    strStartsWith (isoformat now) now.date = true := by
  unfold isoformat
  rw [show now.date ++ "T" ++ pad2 now.hour ++ ":" ++ pad2 now.minute ++ ":" ++ pad2 now.second
      = now.date ++ ("T" ++ pad2 now.hour ++ ":" ++ pad2 now.minute ++ ":" ++ pad2 now.second) by
    simp [String.append_assoc]]
  exact strStartsWith_append _ _

theorem has_recent_of_hasMatch {store : List SimpleMedicationRecord}
    {sch : SimpleMedicationSchedule} {t d : String} (h100 : store.length ≤ 100)
    (hm : HasMatch store sch.id t d) : has_recent_record store sch t d = true := by
  obtain ⟨r, hr, h1, h2, h3⟩ := hm
  unfold has_recent_record get_recent_records
  rw [List.take_of_length_le (by
    rw [(List.perm_insertionSort _ store).length_eq]; exact h100)]
  rw [List.any_eq_true]
  exact ⟨r, (List.mem_insertionSort _).2 hr, by simp [h1, h2, h3]⟩

theorem hasMatch_of_has_recent {store : List SimpleMedicationRecord}
    {sch : SimpleMedicationSchedule} {t d : String}
    (h : has_recent_record store sch t d = true) : HasMatch store sch.id t d := by
  unfold has_recent_record get_recent_records at h
  rw [List.any_eq_true] at h
  obtain ⟨r, hr, hp⟩ := h
  have hr' : r ∈ store := (List.mem_insertionSort _).1 (List.mem_of_mem_take hr)
  simp only [Bool.and_eq_true, beq_iff_eq] at hp
  exact ⟨r, hr', hp.1.1, hp.1.2, hp.2⟩

theorem sweepTimes_covers (sch : SimpleMedicationSchedule) (now : PyDateTime) :
    ∀ (ts : List String) (store : List SimpleMedicationRecord) (c : Nat) (t : String),
      t ∈ ts → isDueStr now t = true →
      HasMatch (sweepTimes sch now ts (store, c)).1 sch.id t now.date := by
  intro ts
  induction ts with
  | nil => intro store c t ht; cases ht
  | cons t0 ts ih =>
    intro store c t ht hdue
    cases hp : parseColonTime t0 with
    | none =>
      simp only [sweepTimes, hp]
      rcases List.mem_cons.1 ht with rfl | ht'
      · exfalso
        unfold isDueStr at hdue
        rw [hp] at hdue
        exact Bool.false_ne_true hdue
      · exact ih store c t ht' hdue
    | some hm =>
      obtain ⟨h, m⟩ := hm
      simp only [sweepTimes, hp]
      split
      next hc =>
        rw [save_record_fresh _ _ rfl]
        rcases List.mem_cons.1 ht with rfl | ht'
        · obtain ⟨new, c', heq⟩ := sweepTimes_extends sch now ts
            (store ++ [mkMissedRecord sch t now (freshId store)]) (c + 1)
          rw [heq]
          exact ⟨mkMissedRecord sch t now (freshId store),
            by simp, rfl, rfl, strStartsWith_isoformat now⟩
        · exact ih _ _ t ht' hdue
      next hc =>
        rcases List.mem_cons.1 ht with rfl | ht'
        · have hd : dueAt now h m = true := by
            unfold isDueStr at hdue
            rw [hp] at hdue
            exact hdue
          have hrec : has_recent_record store sch t now.date = true := by
            by_contra hnr
            exact hc (by simp [hd, Bool.eq_false_iff.2 hnr])
          obtain ⟨r, hr, hmr⟩ := hasMatch_of_has_recent hrec
          obtain ⟨new, c', heq⟩ := sweepTimes_extends sch now ts store c
          rw [heq]
          exact ⟨r, List.mem_append_left _ hr, hmr⟩
        · exact ih store c t ht' hdue

theorem sweepSchedules_covers (now : PyDateTime) :
    ∀ (schs : List SimpleMedicationSchedule) (store : List SimpleMedicationRecord)
      (c : Nat) (sch : SimpleMedicationSchedule) (t : String),
      sch ∈ schs → t ∈ sch.schedule_times → isDueStr now t = true →
      HasMatch (sweepSchedules now schs (store, c)).1 sch.id t now.date := by
  intro schs
  induction schs with
  | nil => intro store c sch t hsch; cases hsch
  | cons s0 ss ih =>
    intro store c sch t hsch ht hdue
    simp only [sweepSchedules]
    rcases List.mem_cons.1 hsch with rfl | hsch'
    · have h1 := sweepTimes_covers sch now sch.schedule_times store c t ht hdue
      obtain ⟨new, c', heq⟩ := sweepSchedules_extends now ss
        (sweepTimes sch now sch.schedule_times (store, c)).1
        (sweepTimes sch now sch.schedule_times (store, c)).2
      rw [Prod.mk.eta] at heq
      rw [heq]
      obtain ⟨r, hr, hmr⟩ := h1
      exact ⟨r, List.mem_append_left _ hr, hmr⟩
    · have := ih (sweepTimes s0 now s0.schedule_times (store, c)).1
        (sweepTimes s0 now s0.schedule_times (store, c)).2 sch t hsch' ht hdue
      rwa [Prod.mk.eta] at this

theorem sweepTimes_noop (sch : SimpleMedicationSchedule) (now : PyDateTime) :
    ∀ (ts : List String) (store : List SimpleMedicationRecord) (c : Nat),
      (∀ t ∈ ts, isDueStr now t = true → has_recent_record store sch t now.date = true) →
      sweepTimes sch now ts (store, c) = (store, c) := by
  intro ts
  induction ts with
  | nil => intro store c _; rfl
  | cons t0 ts ih =>
    intro store c h
    cases hp : parseColonTime t0 with
    | none =>
      simp only [sweepTimes, hp]
      exact ih store c fun t ht => h t (List.mem_cons_of_mem _ ht)
    | some hm =>
      obtain ⟨h0, m0⟩ := hm
      simp only [sweepTimes, hp]
      have hcond : (dueAt now h0 m0 && !has_recent_record store sch t0 now.date) = false := by
        by_cases hd : dueAt now h0 m0 = true
        · have hrec := h t0 (List.mem_cons_self _ _) (by unfold isDueStr; rw [hp]; exact hd)
          simp [hd, hrec]
        · simp [Bool.eq_false_iff.2 hd]
      rw [hcond]
      simp only [Bool.false_eq_true, if_false]
      exact ih store c fun t ht => h t (List.mem_cons_of_mem _ ht)

theorem sweepSchedules_noop (now : PyDateTime) :
    ∀ (schs : List SimpleMedicationSchedule) (store : List SimpleMedicationRecord) (c : Nat),
      (∀ sch ∈ schs, ∀ t ∈ sch.schedule_times, isDueStr now t = true →
        has_recent_record store sch t now.date = true) →
      sweepSchedules now schs (store, c) = (store, c) := by
  intro schs
  induction schs with
  | nil => intro store c _; rfl
  | cons s0 ss ih =>
    intro store c h
    simp only [sweepSchedules]
    rw [sweepTimes_noop s0 now s0.schedule_times store c
      (h s0 (List.mem_cons_self _ _))]
    exact ih store c fun sch hsch => h sch (List.mem_cons_of_mem _ hsch)

/-! ## Claim C2 -/

/-- Claim C2 (amended): the missed-dose sweep is idempotent as long as the
store stays within the 100-record window consulted by
`_has_recent_record`: if the store left by the first
`check_missed_medications` holds at most 100 records, a second invocation
at the same clock reading with no records added in between creates zero
additional MISSED records and leaves the store unchanged. -/
theorem C2_sweep_idempotent_within_window
    (schedules : List SimpleMedicationSchedule) (now : PyDateTime)
    (store0 : List SimpleMedicationRecord)
    (h100 : (check_missed_medications schedules now store0).1.length ≤ 100) :
    check_missed_medications schedules now (check_missed_medications schedules now store0).1
      = ((check_missed_medications schedules now store0).1, 0) := by
  unfold check_missed_medications
  apply sweepSchedules_noop
  intro sch hsch t ht hdue
  apply has_recent_of_hasMatch h100
  exact sweepSchedules_covers now _ store0 0 sch t hsch ht hdue

/-- Pre-existing unrelated record with a far-future `created_at`, used to
fill the 100-slot window of `get_recent_records`. -/
def junkRec (n : Nat) : SimpleMedicationRecord :=
  { id := String.mk (List.replicate n 'j'), schedule_id := "zz", medication_id := "M9",
    scheduled_time := none, actual_time := none, status := .taken,
    sensor_confirmed := false, notes := "", created_at := "9" }

/-- A store of 100 unrelated records, all sorting above anything the sweep
creates today. -/
def bigStoreC2 : List SimpleMedicationRecord := (List.range 100).map junkRec

/-- One active schedule for M0 at 08:00. -/
def schedC2 : SimpleMedicationSchedule :=
  { id := "s1", medication_id := "M0", times_per_day := 1, dosage_count := 1,
    schedule_times := ["08:00"], start_date := "2024-10-01", end_date := "2024-12-31",
    notes := "", is_active := true }

/-- Clock reading 10:00, well past the 08:00 dose. -/
def nowC2 : PyDateTime := ⟨"2024-10-01", 10, 0, 0⟩

set_option maxRecDepth 200000 in
/-- Claim C2 counterexample: with 100 pre-existing records whose
`created_at` sorts above today's timestamps, the MISSED record created by
the first sweep falls outside the 100 most recent rows consulted by
`_has_recent_record`, so the second sweep — run on exactly the store the
first sweep produced, with no records added in between — creates one more
MISSED record instead of zero. -/
theorem C2_counterexample :
    (check_missed_medications [schedC2] nowC2
      (check_missed_medications [schedC2] nowC2 bigStoreC2).1).2 = 1 := by
  decide

/-- Witness for C2: a concrete store (empty, one schedule) whose first
sweep leaves a single record, within the window; the theorem then yields
a no-op second sweep. -/
theorem C2_sweep_idempotent_within_window_witness :
    (check_missed_medications [schedC2] nowC2 []).1.length ≤ 100 ∧
    check_missed_medications [schedC2] nowC2 (check_missed_medications [schedC2] nowC2 []).1
      = ((check_missed_medications [schedC2] nowC2 []).1, 0) :=
  ⟨by decide, C2_sweep_idempotent_within_window [schedC2] nowC2 [] (by decide)⟩

/-! ## Claims C1 and C10 -/

theorem determine_medication_status_eq_taken (sch : SimpleMedicationSchedule)
    (t : PyDateTime) : determine_medication_status sch t = .taken := by
  unfold determine_medication_status
  split
  · rfl
  · split
    · rfl
    · dsimp only
      split
      · rfl
      · split <;> rfl

theorem nearestLoop_fst_cases (cur : Option (Nat × Nat)) :
    ∀ (ts : List String) (best : Option String) (md : Option Nat),
      (nearestLoop cur ts best md).1 = best ∨
        ∃ t ∈ ts, (nearestLoop cur ts best md).1 = some t := by
  intro ts
  induction ts with
  | nil => intro best md; exact Or.inl rfl
  | cons t0 ts ih =>
    intro best md
    cases hp : parseHM t0 with
    | none =>
      rcases ih best md with h | ⟨t, ht, he⟩
      · exact Or.inl (by simpa only [nearestLoop, hp] using h)
      · exact Or.inr ⟨t, List.mem_cons_of_mem _ ht, by simpa only [nearestLoop, hp] using he⟩
    | some hm =>
      obtain ⟨h, m⟩ := hm
      cases hcur : cur with
      | none =>
        rcases ih best md with h1 | ⟨t, ht, he⟩
        · exact Or.inl (by simpa only [nearestLoop, hp, hcur] using h1)
        · exact Or.inr ⟨t, List.mem_cons_of_mem _ ht,
            by simpa only [nearestLoop, hp, hcur] using he⟩
      | some cc =>
        obtain ⟨ch, cm⟩ := cc
        rw [hcur] at ih
        by_cases hlt : (match md with
            | none => true
            | some d => decide (60 * absDiffNat (h * 60 + m) (ch * 60 + cm) < d)) = true
        · rcases ih (some t0) (some (60 * absDiffNat (h * 60 + m) (ch * 60 + cm))) with
            h1 | ⟨t, ht, he⟩
          · refine Or.inr ⟨t0, List.mem_cons_self _ _, ?_⟩
            simp only [nearestLoop, hp, hcur]
            rw [if_pos hlt]
            exact h1
          · refine Or.inr ⟨t, List.mem_cons_of_mem _ ht, ?_⟩
            simp only [nearestLoop, hp, hcur]
            rw [if_pos hlt]
            exact he
        · rcases ih best md with h1 | ⟨t, ht, he⟩
          · refine Or.inl ?_
            simp only [nearestLoop, hp, hcur]
            rw [if_neg hlt]
            exact h1
          · refine Or.inr ⟨t, List.mem_cons_of_mem _ ht, ?_⟩
            simp only [nearestLoop, hp, hcur]
            rw [if_neg hlt]
            exact he

theorem get_nearest_mem {sch : SimpleMedicationSchedule} {cur : PyDateTime} {t : String}
    (h : get_nearest_scheduled_time sch cur = some t) : t ∈ sch.schedule_times := by
  unfold get_nearest_scheduled_time at h
  rcases hc : (nearestLoop (parseHM (strftimeHM cur)) sch.schedule_times none none).1 with
    _ | t'
  · rw [hc] at h
    simp only at h
    cases hts : sch.schedule_times with
    | nil => rw [hts] at h; cases h
    | cons a as =>
      rw [hts] at h
      simp only [List.head?] at h
      cases h
      exact List.mem_cons_self _ _
  · rw [hc] at h
    simp only at h
    cases h
    rcases nearestLoop_fst_cases (parseHM (strftimeHM cur)) sch.schedule_times none none with
      h1 | ⟨u, hu, he⟩
    · rw [hc] at h1; cases h1
    · rw [hc] at he
      cases he
      exact hu

theorem get_nearest_none_iff (sch : SimpleMedicationSchedule) (cur : PyDateTime) :
    get_nearest_scheduled_time sch cur = none ↔ sch.schedule_times = [] := by
  constructor
  · intro h
    unfold get_nearest_scheduled_time at h
    rcases hc : (nearestLoop (parseHM (strftimeHM cur)) sch.schedule_times none none).1 with
      _ | t'
    · rw [hc] at h
      simp only at h
      cases hts : sch.schedule_times with
      | nil => rfl
      | cons a as => rw [hts] at h; cases h
    · rw [hc] at h
      cases h
  · intro h
    unfold get_nearest_scheduled_time
    rw [h]
    rfl

theorem nearestLoop_all_unparsed (cur : Option (Nat × Nat)) :
    ∀ (ts : List String) (best : Option String) (md : Option Nat),
      (∀ t ∈ ts, parseHM t = none) → nearestLoop cur ts best md = (best, md) := by
  intro ts
  induction ts with
  | nil => intro best md _; rfl
  | cons t0 ts ih =>
    intro best md h
    have hp : parseHM t0 = none := h t0 (List.mem_cons_self _ _)
    simp only [nearestLoop, hp]
    exact ih best md fun t ht => h t (List.mem_cons_of_mem _ ht)

theorem get_nearest_fallback (sch : SimpleMedicationSchedule) (cur : PyDateTime)
    (h : ∀ t ∈ sch.schedule_times, parseHM t = none) :
    get_nearest_scheduled_time sch cur = sch.schedule_times.head? := by
  unfold get_nearest_scheduled_time
  rw [nearestLoop_all_unparsed _ _ _ _ h]

theorem process_sensor_record_schedule
    {schedules : List SimpleMedicationSchedule} {store : List SimpleMedicationRecord}
    {cid : String} {ot : Option String} {now : PyDateTime} {rec : SimpleMedicationRecord}
    (h : (process_sensor_data schedules store cid ot now).1 = some rec) :
    ∃ sch, sch ∈ schedules ∧ sch.is_active = true ∧
      rec.scheduled_time = get_nearest_scheduled_time sch now := by
  simp only [process_sensor_data] at h
  split at h
  · cases h
  next target hf =>
    injection h with h
    have hmem := List.mem_of_find?_eq_some hf
    have hfil := List.mem_filter.1 hmem
    exact ⟨target, hfil.1, hfil.2, by rw [← h]⟩

/-- Claim C10: the nearest-scheduled-time lookup returns an element of the
schedule's time list whenever it returns a value, returns `none` exactly
when the list is empty, falls back to the first entry when no entry parses
as `HH:MM`, and consequently every record created by `process_sensor_data`
carries a `scheduled_time` drawn from the matched schedule's own time list
whenever that list is nonempty. -/
theorem C10_nearest_time_from_schedule :
    (∀ (sch : SimpleMedicationSchedule) (cur : PyDateTime) (t : String),
      get_nearest_scheduled_time sch cur = some t → t ∈ sch.schedule_times) ∧
    (∀ (sch : SimpleMedicationSchedule) (cur : PyDateTime),
      get_nearest_scheduled_time sch cur = none ↔ sch.schedule_times = []) ∧
    (∀ (sch : SimpleMedicationSchedule) (cur : PyDateTime),
      (∀ t ∈ sch.schedule_times, parseHM t = none) →
      get_nearest_scheduled_time sch cur = sch.schedule_times.head?) ∧
    (∀ (schedules : List SimpleMedicationSchedule) (store : List SimpleMedicationRecord)
      (cid : String) (ot : Option String) (now : PyDateTime) (rec : SimpleMedicationRecord),
      (process_sensor_data schedules store cid ot now).1 = some rec →
      ∃ sch, sch ∈ schedules ∧ sch.is_active = true ∧
        (sch.schedule_times ≠ [] →
          ∃ t ∈ sch.schedule_times, rec.scheduled_time = some t)) := by
  refine ⟨fun sch cur t h => get_nearest_mem h, get_nearest_none_iff,
    get_nearest_fallback, ?_⟩
  intro schedules store cid ot now rec h
  obtain ⟨sch, hmem, hact, hsc⟩ := process_sensor_record_schedule h
  refine ⟨sch, hmem, hact, fun hne => ?_⟩
  rcases hv : get_nearest_scheduled_time sch now with _ | t
  · exact absurd ((get_nearest_none_iff sch now).1 hv) hne
  · exact ⟨t, get_nearest_mem hv, by rw [hsc, hv]⟩

/-- The active M0 schedule of the claims, times 08:00 / 14:00 / 20:00. -/
def schedC1 : SimpleMedicationSchedule :=
  { id := "sched-c1", medication_id := "M0", times_per_day := 3, dosage_count := 1,
    schedule_times := ["08:00", "14:00", "20:00"], start_date := "2024-10-01",
    end_date := "2024-12-31", notes := "", is_active := true }

/-- Wall clock at 15:00, hours after the simulated 08:05 opening. -/
def nowAfternoonC1 : PyDateTime := ⟨"2024-10-01", 15, 0, 0⟩

/-- Wall clock coinciding with the 08:05 opening. -/
def nowMorningC1 : PyDateTime := ⟨"2024-10-01", 8, 5, 0⟩

/-- Claim C1 evaluation: `process_sensor_data("0", "08:05")` always saves
exactly one TAKEN, sensor-confirmed record, but its `scheduled_time` is
the nearest schedule entry to the wall clock `datetime.now()` at
processing time, not to the opened time: processed at 15:00 the record
carries `"14:00"` (the claim demands `"08:00"`); only when the wall clock
matches the opened 08:05 does `"08:00"` result. -/
theorem C1_scheduled_time_uses_wall_clock :
    (∃ r, (process_sensor_data [schedC1] [] "0" (some "08:05") nowAfternoonC1).1 = some r ∧
      (process_sensor_data [schedC1] [] "0" (some "08:05") nowAfternoonC1).2 = [r] ∧
      r.scheduled_time = some "14:00" ∧ r.scheduled_time ≠ some "08:00" ∧
      r.status = MedicationStatus.taken ∧ r.sensor_confirmed = true ∧
      r.actual_time = some "08:05") ∧
    (∃ r, (process_sensor_data [schedC1] [] "0" (some "08:05") nowMorningC1).1 = some r ∧
      r.scheduled_time = some "08:00" ∧ r.status = MedicationStatus.taken ∧
      r.sensor_confirmed = true) := by
  constructor
  · refine ⟨_, rfl, ?_, by decide, by decide, ?_, rfl, rfl⟩
    · show save_record [] _ = _
      rw [save_record_fresh _ _ rfl]
      rfl
    · exact determine_medication_status_eq_taken schedC1 nowAfternoonC1
  · exact ⟨_, rfl, by decide,
      determine_medication_status_eq_taken schedC1 nowMorningC1, rfl⟩

/-- Witness for C10 at concrete inputs: membership, the empty-list
equivalence, the unparseable-entries fallback, and a sensor-created
record drawing its scheduled time from the schedule's list. -/
theorem C10_nearest_time_from_schedule_witness :
    "14:00" ∈ schedC1.schedule_times ∧
    (get_nearest_scheduled_time schedC1 nowAfternoonC1 = none ↔
      schedC1.schedule_times = []) ∧
    get_nearest_scheduled_time
      { schedC1 with schedule_times := ["late", "early"] } nowAfternoonC1 = some "late" ∧
    (∃ rec, (process_sensor_data [schedC1] [] "0" (some "08:05") nowAfternoonC1).1 = some rec ∧
      ∃ sch, sch ∈ [schedC1] ∧ sch.is_active = true ∧
        (sch.schedule_times ≠ [] →
          ∃ t ∈ sch.schedule_times, rec.scheduled_time = some t)) := by
  refine ⟨?_, C10_nearest_time_from_schedule.2.1 schedC1 nowAfternoonC1, ?_, ?_⟩
  · exact C10_nearest_time_from_schedule.1 schedC1 nowAfternoonC1 "14:00" (by decide)
  · exact (C10_nearest_time_from_schedule.2.2.1
      { schedC1 with schedule_times := ["late", "early"] } nowAfternoonC1
      (by decide)).trans (by decide)
  · rcases hr : (process_sensor_data [schedC1] [] "0" (some "08:05") nowAfternoonC1).1 with
      _ | r
    · have hs : ((process_sensor_data [schedC1] [] "0" (some "08:05")
          nowAfternoonC1).1).isSome = true := rfl
      rw [hr] at hs
      cases hs
    · exact ⟨r, rfl,
        C10_nearest_time_from_schedule.2.2.2 [schedC1] [] "0" (some "08:05")
          nowAfternoonC1 r hr⟩

/-! ## Claim C8 -/

/-- The adherence rate as the claim states it: TAKEN records over all
records of the store whose creation timestamp is within the trailing
window, as a percentage, `0` on an empty window. -/
def adherence_claim_rate (store : List SimpleMedicationRecord) (cutoff_date : String) : ℚ :=
  let w := store.filter fun r => pyStrLe cutoff_date r.created_at
  if w.isEmpty then 0
  else ((w.countP fun r => r.status == MedicationStatus.taken : Nat) : ℚ) / (w.length : ℚ) * 100

/-- Claim C8 (amended): as long as the store holds at most 500 records —
the `LIMIT 500` window read by `get_medication_adherence_rate` — the
computed rate equals the claim's ratio of TAKEN records to all records
within the trailing window, as a percentage (0 on an empty window); in
particular 3 TAKEN and 1 MISSED give 75 and an empty store gives 0. -/
theorem C8_adherence_rate_within_window (store : List SimpleMedicationRecord)
    (cutoff_date : String) (h : store.length ≤ 500) :
    get_medication_adherence_rate store cutoff_date =
      adherence_claim_rate store cutoff_date := by
  have hperm : List.Perm (recent_of store cutoff_date)
      (store.filter fun r => pyStrLe cutoff_date r.created_at) := by
    unfold recent_of get_recent_records
    rw [List.take_of_length_le (by
      rw [(List.perm_insertionSort _ store).length_eq]; exact h)]
    exact (List.perm_insertionSort _ store).filter _
  have hlen := hperm.length_eq
  have hcnt := hperm.countP_eq fun r => r.status == MedicationStatus.taken
  have hemp : (recent_of store cutoff_date).isEmpty
      = (store.filter fun r => pyStrLe cutoff_date r.created_at).isEmpty := by
    rw [Bool.eq_iff_iff]
    simp only [List.isEmpty_iff_length_eq_zero, hlen]
  simp only [get_medication_adherence_rate, adherence_claim_rate, hemp, hcnt, hlen]
  split
  · rfl
  · rw [if_pos]
    rw [List.length_pos_iff_ne_nil]
    intro hnil
    simp_all

/-- A MISSED record inside the C8 window. -/
def missedRecC8 (n : Nat) : SimpleMedicationRecord :=
  { id := String.mk (List.replicate n 'm'), schedule_id := "s", medication_id := "M0",
    scheduled_time := some "08:00", actual_time := none, status := .missed,
    sensor_confirmed := false, notes := "", created_at := "5" }

/-- A TAKEN record inside the C8 window. -/
def takenRecC8 : SimpleMedicationRecord :=
  { id := "t", schedule_id := "s", medication_id := "M0",
    scheduled_time := some "08:00", actual_time := some "08:05", status := .taken,
    sensor_confirmed := true, notes := "", created_at := "5" }

/-- 501 records, all within the window: 500 MISSED and one TAKEN that the
`LIMIT 500` query drops. -/
def bigStoreC8 : List SimpleMedicationRecord :=
  (List.range 500).map missedRecC8 ++ [takenRecC8]

set_option maxRecDepth 1000000 in
/-- Claim C8 counterexample: with 501 records in the window, the single
TAKEN record falls outside the 500 most recent rows the code reads, so
the code returns 0 while the claimed ratio over all in-window records is
100/501. -/
theorem C8_counterexample :
    ¬ get_medication_adherence_rate bigStoreC8 "3" = adherence_claim_rate bigStoreC8 "3" := by
  have hc : ((recent_of bigStoreC8 "3").countP
      fun r => r.status == MedicationStatus.taken) = 0 := by decide
  have hl : (recent_of bigStoreC8 "3").length = 500 := by decide
  have he : (recent_of bigStoreC8 "3").isEmpty = false := by decide
  have hc2 : ((bigStoreC8.filter fun r => pyStrLe "3" r.created_at).countP
      fun r => r.status == MedicationStatus.taken) = 1 := by decide
  have hl2 : (bigStoreC8.filter fun r => pyStrLe "3" r.created_at).length = 501 := by decide
  have he2 : (bigStoreC8.filter fun r => pyStrLe "3" r.created_at).isEmpty = false := by decide
  simp only [get_medication_adherence_rate, adherence_claim_rate, hc, hl, he, hc2, hl2, he2,
    Bool.false_eq_true, if_false]
  norm_num

/-- Four records in the window: 3 TAKEN, 1 MISSED. -/
def fourStoreC8 : List SimpleMedicationRecord :=
  [takenRecC8, { takenRecC8 with id := "t2" }, { takenRecC8 with id := "t3" },
   missedRecC8 0]

/-- Witness for C8: the amended theorem instantiated at a 4-record store
(3 TAKEN, 1 MISSED — rate 75) and at the empty store (rate 0). -/
theorem C8_adherence_rate_within_window_witness :
    fourStoreC8.length ≤ 500 ∧
    get_medication_adherence_rate fourStoreC8 "3" = 75 ∧
    get_medication_adherence_rate ([] : List SimpleMedicationRecord) "3" = 0 := by
  refine ⟨by decide, (C8_adherence_rate_within_window fourStoreC8 "3" (by decide)).trans ?_,
    (C8_adherence_rate_within_window [] "3" (by decide)).trans ?_⟩
  · have hc : ((fourStoreC8.filter fun r => pyStrLe "3" r.created_at).countP
        fun r => r.status == MedicationStatus.taken) = 3 := by decide
    have hl : (fourStoreC8.filter fun r => pyStrLe "3" r.created_at).length = 4 := by decide
    have he : (fourStoreC8.filter fun r => pyStrLe "3" r.created_at).isEmpty = false := by
      decide
    simp only [adherence_claim_rate, hc, hl, he, Bool.false_eq_true, if_false]
    norm_num
  · simp [adherence_claim_rate]

/-! ## JSON values and the message dispatcher (`simple_host_sender.py`)

`json.loads` is external library code; its result is a dynamically typed
JSON value, modelled by `JVal`, and the parser itself is a parameter
`jsonLoads` of the dispatcher (raising `JSONDecodeError` on bad input,
modelled as `Except.error`). -/

/-- A Python value produced by `json.loads`. -/
inductive JVal where
  | null
  | bool (b : Bool)
  | num (n : Int)
  | str (s : String)
  | arr (elems : List JVal)
  | obj (fields : List (String × JVal))

/-- `dict.get(k)` on a JSON object: the last binding of a duplicated key
wins, as in a Python dict built by `json.loads`. -/
def dictGet (fields : List (String × JVal)) (k : String) : Option JVal :=
  fields.foldl (fun acc p => if p.1 = k then some p.2 else acc) none

/-- Python truthiness of a JSON value. -/
def JVal.truthy : JVal → Bool
  | .null => false
  | .bool b => b
  | .num n => decide (n ≠ 0)
  | .str s => decide (s ≠ "")
  | .arr l => !l.isEmpty
  | .obj f => !f.isEmpty

/-- Python `==` between a JSON value and a string literal: only equal
strings compare equal. -/
def JVal.isStrVal : JVal → String → Bool
  | .str t, s => decide (t = s)
  | _, _ => false

/-- Truthiness of the result of a `dict.get` (a missing key yields `None`,
which is falsy). -/
def truthyOpt : Option JVal → Bool
  | none => false
  | some v => v.truthy

/-- `WelcomeInfo` dataclass; field values come from `dict.get` and are
arbitrary JSON values (the dataclass annotations are not enforced). -/
structure WelcomeInfo where
  device : JVal
  ip : JVal
  time : JVal
  boxes : JVal

/-- `BoxEvent` dataclass. -/
structure BoxEvent where
  box : JVal
  state : JVal
  time : JVal

/-- `PillboxStatus` dataclass. -/
structure PillboxStatus where
  compartment_id : JVal
  is_open : JVal
  last_opened : JVal
  medication_count : JVal

/-- Payloads placed on the message queue by the handlers. -/
inductive Payload where
  | welcomeInfo (w : WelcomeInfo)
  | json (data : JVal)
  | boxEventData (e : BoxEvent)
  | compartmentStatus (s : PillboxStatus)

/-- One queue entry: `(message type, payload)` as put by
`self.message_queue.put(...)`. -/
def QueueMsg := String × Payload

/-- The session state touched by the handlers: `self.ip`,
`self.welcome_info`, `self.device_boxes` and the `self.last_status`
cache.  The keyed overwrite `self.last_status[cid] = status` is modelled
by prepending the new binding (a lookup would take the most recent); no
claim depends on this map. -/
structure SessionState where
  ip : Option String
  welcome_info : Option WelcomeInfo
  device_boxes : JVal
  last_status : List (JVal × PillboxStatus)

/-- Python exceptions that the dispatcher body can raise. -/
inductive PyExc where
  | jsonDecodeError (msg : String)
  | typeError
  | keyError

/-- Contiguous-substring test (`needle in haystack` on Python strings). -/
def containsRun : List Char → List Char → Bool
  | _, [] => true
  | [], _ :: _ => false
  | h :: hs, n => List.isPrefixOf n (h :: hs) || containsRun hs n

/-- Python `'k' in v` for the values `json.loads` can return: key test on
a dict, substring test on a string, element test on a list; a `TypeError`
on the non-container types. -/
def containsStrKey (v : JVal) (k : String) : Except PyExc Bool :=
  match v with
  | .obj fields => .ok (!(dictGet fields k).isNone)
  | .str s => .ok (containsRun s.data k.data)
  | .arr elems => .ok (elems.any fun e => e.isStrVal k)
  | _ => .error .typeError

/-- Python `v['k']`: dict lookup (`KeyError` if absent), `TypeError` on
anything that is not a dict (string indices must be integers, etc.). -/
def pySubscript (v : JVal) (k : String) : Except PyExc JVal :=
  match v with
  | .obj fields =>
    match dictGet fields k with
    | some x => .ok x
    | none => .error .keyError
  | _ => .error .typeError

/-- `_handle_welcome`: caches the welcome info and the box count, then
queues `('welcome', WelcomeInfo)`. -/
def handle_welcome (st : SessionState) (fields : List (String × JVal)) :
    SessionState × List QueueMsg :=
  let welcome_info : WelcomeInfo :=
    { device := (dictGet fields "device").getD (.str "Unknown")
      ip := (dictGet fields "ip").getD (match st.ip with | some s => .str s | none => .null)
      time := (dictGet fields "time").getD (.str "")
      boxes := (dictGet fields "boxes").getD (.num 0) }
  ({ st with welcome_info := some welcome_info, device_boxes := welcome_info.boxes },
   [("welcome", .welcomeInfo welcome_info)])

/-- `_handle_status_report`: queues `('status', data)` unchanged. -/
def handle_status_report (st : SessionState) (fields : List (String × JVal)) :
    SessionState × List QueueMsg :=
  (st, [("status", .json (.obj fields))])

/-- `_handle_box_event`: builds the `BoxEvent` and queues it. -/
def handle_box_event (st : SessionState) (fields : List (String × JVal)) :
    SessionState × List QueueMsg :=
  let event : BoxEvent :=
    { box := (dictGet fields "box").getD (.num 0)
      state := (dictGet fields "state").getD (.str "unknown")
      time := (dictGet fields "time").getD (.str "") }
  (st, [("box_event", .boxEventData event)])

/-- `_handle_compartment_status`: only acts when
`data.get('compartment_id')` is truthy; then caches the status and queues
it, otherwise does nothing. -/
def handle_compartment_status (st : SessionState) (fields : List (String × JVal)) :
    SessionState × List QueueMsg :=
  match dictGet fields "compartment_id" with
  | some cid =>
    if cid.truthy then
      let status : PillboxStatus :=
        { compartment_id := cid
          is_open := (dictGet fields "is_open").getD (.bool false)
          last_opened := (dictGet fields "last_opened").getD (.str "")
          medication_count := (dictGet fields "medication_count").getD (.num 0) }
      ({ st with last_status := (cid, status) :: st.last_status },
       [("compartment_status", .compartmentStatus status)])
    else (st, [])
  | none => (st, [])

/-- The suite inside the `try` of `_process_received_data`: parse the
line, return silently when there is no `type` discriminator, otherwise
dispatch on it; unknown types fall through silently.  Exceptions raised
anywhere in the suite surface as `Except.error`.  (When `pySubscript`
succeeded the value is a dict, so the non-dict fallthrough below is
unreachable.) -/
def process_received_data_body (jsonLoads : String → Except PyExc JVal)
    (st : SessionState) (data : String) : Except PyExc (SessionState × List QueueMsg) :=
  match jsonLoads (pyStrip data) with
  | .error e => .error e
  | .ok status_data =>
    match containsStrKey status_data "type" with
    | .error e => .error e
    | .ok hasType =>
      if !hasType then .ok (st, [])
      else
        match pySubscript status_data "type" with
        | .error e => .error e
        | .ok msg_type =>
          match status_data with
          | .obj fields =>
            if msg_type.isStrVal "welcome" then .ok (handle_welcome st fields)
            else if msg_type.isStrVal "status" then .ok (handle_status_report st fields)
            else if msg_type.isStrVal "box_event" then .ok (handle_box_event st fields)
            else if msg_type.isStrVal "compartment_status" then
              .ok (handle_compartment_status st fields)
            else .ok (st, [])
          | _ => .ok (st, [])

/-- `_process_received_data` with its `try`/`except` wrapper: a
`JSONDecodeError` and every other exception are swallowed (`pass`), so
the call always returns normally. -/
def process_received_data (jsonLoads : String → Except PyExc JVal)
    (st : SessionState) (data : String) : Except PyExc (SessionState × List QueueMsg) :=
  match process_received_data_body jsonLoads st data with
  | .ok r => .ok r
  | .error (.jsonDecodeError _) => .ok (st, [])
  | .error _ => .ok (st, [])

/-- The queue entries pushed while processing one line. -/
def pushesOf (jsonLoads : String → Except PyExc JVal) (st : SessionState)
    (data : String) : List QueueMsg :=
  match process_received_data jsonLoads st data with
  | .ok (_, ms) => ms
  | .error _ => []

/-- The listen loop's per-line processing over a list of framed lines;
`except Exception: continue` keeps the loop alive if a call ever raised. -/
def process_lines (jsonLoads : String → Except PyExc JVal) :
    SessionState → List String → SessionState × List QueueMsg
  | st, [] => (st, [])
  | st, l :: ls =>
    match process_received_data jsonLoads st l with
    | .ok (st1, ms) =>
      let rest := process_lines jsonLoads st1 ls
      (rest.1, ms ++ rest.2)
    | .error _ => process_lines jsonLoads st ls

/-- A line in one of the three bad shapes named by claim C4: unparseable
JSON, a JSON object without `type`, or a JSON object with an unknown
`type` value. -/
def badLine (jsonLoads : String → Except PyExc JVal) (line : String) : Bool :=
  match jsonLoads (pyStrip line) with
  | .error _ => true
  | .ok (.obj fields) =>
    match dictGet fields "type" with
    | none => true
    | some t => !(t.isStrVal "welcome" || t.isStrVal "status" || t.isStrVal "box_event" ||
        t.isStrVal "compartment_status")
  | .ok _ => false

/-! ## Receive-loop framer (`_listen_loop`) -/

/-- Split a buffer into its completed (newline-terminated) lines and the
trailing partial line: the effect of the
`while '\n' in buffer: line, buffer = buffer.split('\n', 1)` loop. -/
def splitCompleteLines : List Char → List (List Char) × List Char
  | [] => ([], [])
  | c :: cs =>
    if c = '\n' then ([] :: (splitCompleteLines cs).1, (splitCompleteLines cs).2)
    else
      match splitCompleteLines cs with
      | (l :: ls, rest) => ((c :: l) :: ls, rest)
      | ([], rest) => ([], c :: rest)

/-- Messages handed to `_process_received_data`: each completed line is
stripped and empty lines are skipped (`line = line.strip(); if line:`). -/
def emit_lines (ls : List (List Char)) : List String :=
  (ls.map fun l => pyStrip (String.mk l)).filter fun s => s ≠ ""

/-- One iteration of the listen loop after a successful `recv`: append
the chunk to `self.recv_buffer`, drain the completed lines, keep the
partial tail buffered. -/
def listen_step (buffer data : List Char) : List String × List Char :=
  ((emit_lines (splitCompleteLines (buffer ++ data)).1),
   (splitCompleteLines (buffer ++ data)).2)

/-- Run the listen loop over a list of received chunks starting from a
given buffer, collecting all messages in order. -/
def feed_from (buffer : List Char) : List (List Char) → List String × List Char
  | [] => ([], buffer)
  | c :: cs =>
    let step := listen_step buffer c
    let rest := feed_from step.2 cs
    (step.1 ++ rest.1, rest.2)

/-- Run the listen loop from the initial empty buffer. -/
def feed_chunks (chunks : List (List Char)) : List String × List Char :=
  feed_from [] chunks

/-- Number of newline-terminated lines in a stream. -/
def newline_terminated_line_count (s : List Char) : Nat := s.count '\n'

/-! ## UDP discovery (`esp32_discovery.py`) -/

/-- Environment outcome of one discovery attempt: a socket-level error
(socket creation or `sendto` raising `OSError`), a `recvfrom` timeout, a
reply that fails to decode as JSON, or a decoded JSON-object datagram. -/
inductive AttemptEnv where
  | sockError
  | noReply
  | malformed
  | datagram (fields : List (String × JVal))

/-- Externally visible discovery actions: the broadcast send (with the
socket timeout in force) and the fixed `time.sleep(1)` between retries. -/
inductive DiscEvent where
  | broadcast (timeout : Nat)
  | sleepSecs (n : Nat)
deriving DecidableEq

/-- `ESP32Discovery.discover()`: one broadcast/receive exchange.  Returns
`(ip, port)` on a reply whose `device` equals `"ESP32-Pillbox"` —
`response.get('ip')` as-is and `response.get('port', 8080)` — and
`(None, None)` otherwise: on timeout, on a JSON decode error, on a reply
naming another device, or on a socket error (caught by the outer
`except Exception`, before any broadcast goes out). -/
def discover (timeout : Nat) (env : AttemptEnv) :
    (Option JVal × Option JVal) × List DiscEvent :=
  match env with
  | .sockError => ((none, none), [])
  | .noReply => ((none, none), [.broadcast timeout])
  | .malformed => ((none, none), [.broadcast timeout])
  | .datagram fields =>
    if (dictGet fields "device").elim false (fun v => v.isStrVal "ESP32-Pillbox") then
      ((dictGet fields "ip", some ((dictGet fields "port").getD (.num 8080))),
       [.broadcast timeout])
    else ((none, none), [.broadcast timeout])

/-- `discover_with_retry(max_retries)`: one environment outcome per
attempt (so `max_retries` is the length of `envs`); returns the first
result with a truthy ip, sleeping one second between attempts, and
`(None, None)` after the last attempt fails. -/
def discover_with_retry (timeout : Nat) :
    List AttemptEnv → (Option JVal × Option JVal) × List DiscEvent
  | [] => ((none, none), [])
  | e :: rest =>
    let attempt := discover timeout e
    if truthyOpt attempt.1.1 then attempt
    else if rest.isEmpty then ((none, none), attempt.2)
    else
      let later := discover_with_retry timeout rest
      (later.1, attempt.2 ++ DiscEvent.sleepSecs 1 :: later.2)

/-- The `discover_esp32(timeout, max_retries)` convenience wrapper. -/
def discover_esp32 (timeout : Nat) (envs : List AttemptEnv) :
    (Option JVal × Option JVal) × List DiscEvent :=
  discover_with_retry timeout envs

/-! ## Schedule command (`send_schedule_config`) -/

/-- Python `s[:n]`. -/
def pySlice (s : String) (n : Nat) : String := String.mk (s.data.take n)

/-- One schedule dictionary as read from the database and consumed
through `.get(key, default)`; absent keys are `none`. -/
structure SchedDict where
  medication_id : Option String := none
  times_per_day : Option Int := none
  dosage_count : Option Int := none
  schedule_times : Option (List String) := none
  start_date : Option String := none
  end_date : Option String := none
  notes : Option String := none
  is_active : Option Bool := none

/-- One entry of the outbound `medications` array. -/
structure MedConfig where
  medication_id : String
  medication_name : String
  times_per_day : Int
  pills_per_dose : Int
  schedule_times : List String
  start_date : String
  end_date : String
  notes : String
  duration : Int
  is_active : Bool
deriving DecidableEq

/-- The per-schedule mapping inside the `send_schedule_config` loop. -/
def build_medication (s : SchedDict) : MedConfig :=
  { medication_id := s.medication_id.getD "M0"
    medication_name := get_medication_name (s.medication_id.getD "M0")
    times_per_day := s.times_per_day.getD 1
    pills_per_dose := s.dosage_count.getD 1
    schedule_times := s.schedule_times.getD []
    start_date := s.start_date.getD ""
    end_date := s.end_date.getD ""
    notes := pySlice (s.notes.getD "") 100
    duration := 60
    is_active := true }

/-- The `medications` list built by `send_schedule_config`: schedules
whose `is_active` (default `True`) is falsy are skipped, the rest are
mapped to the outbound shape. -/
def build_medications (schedules : List SchedDict) : List MedConfig :=
  (schedules.filter fun s => s.is_active.getD true).map build_medication

/-- Outcome of `send_schedule_config` up to the point the command leaves
the socket: an early error dictionary (`status`/`message`), or the
command flushed with its `medications` array.  The subsequent response
wait depends on the external device and is outside this model. -/
inductive SendOutcome where
  | errorResult (status message : String)
  | sentCommand (medications : List MedConfig)
deriving DecidableEq

/-- `send_schedule_config(schedules)`: refuses when not connected,
builds the medications list, refuses with an explicit error when it is
empty, otherwise serializes and sends the `SET_SCHEDULE` command. -/
def send_schedule_config (is_connected has_socket : Bool)
    (schedules : List SchedDict) : SendOutcome :=
  if !is_connected || !has_socket then .errorResult "ERROR" "Not connected to pillbox"
  else
    let medications := build_medications schedules
    if medications.isEmpty then .errorResult "ERROR" "No active medications to send"
    else .sentCommand medications

/-! ## Claim C3 -/

theorem splitCompleteLines_no_newline (l : List Char) (h : '\n' ∉ l) :
    splitCompleteLines l = ([], l) := by
  induction l with
  | nil => rfl
  | cons c cs ih =>
    have hc : ¬ c = '\n' := by rintro rfl; exact h (List.mem_cons_self _ _)
    have hcs : '\n' ∉ cs := fun hm => h (List.mem_cons_of_mem _ hm)
    simp only [splitCompleteLines, if_neg hc, ih hcs]

theorem splitCompleteLines_rest_no_newline (l : List Char) :
    '\n' ∉ (splitCompleteLines l).2 := by
  induction l with
  | nil => simp [splitCompleteLines]
  | cons c cs ih =>
    simp only [splitCompleteLines]
    split
    next => exact ih
    next hc =>
      rcases hs : splitCompleteLines cs with ⟨ls, rest⟩
      rw [hs] at ih
      rcases ls with _ | ⟨l0, ls⟩
      · show '\n' ∉ c :: rest
        intro hm
        rcases List.mem_cons.1 hm with he | hm'
        · exact hc he.symm
        · exact ih hm'
      · show '\n' ∉ rest
        exact ih

theorem splitCompleteLines_lines_no_newline (l : List Char) :
    ∀ ln ∈ (splitCompleteLines l).1, '\n' ∉ ln := by
  induction l with
  | nil => intro ln h; cases h
  | cons c cs ih =>
    simp only [splitCompleteLines]
    split
    next =>
      intro ln h
      rcases List.mem_cons.1 h with rfl | h'
      · simp
      · exact ih ln h'
    next hc =>
      rcases hs : splitCompleteLines cs with ⟨ls, rest⟩
      rw [hs] at ih
      rcases ls with _ | ⟨l0, ls⟩
      · show ∀ ln ∈ ([] : List (List Char)), '\n' ∉ ln
        intro ln h
        cases h
      · show ∀ ln ∈ (c :: l0) :: ls, '\n' ∉ ln
        intro ln h
        rcases List.mem_cons.1 h with rfl | h'
        · intro hm
          rcases List.mem_cons.1 hm with he | hm'
          · exact hc he.symm
          · exact ih l0 (List.mem_cons_self _ _) hm'
        · exact ih ln (List.mem_cons_of_mem _ h')

theorem splitCompleteLines_cons_nl (cs : List Char) :
    splitCompleteLines ('\n' :: cs) =
      ([] :: (splitCompleteLines cs).1, (splitCompleteLines cs).2) := by
  simp [splitCompleteLines]

theorem splitCompleteLines_cons_ne (c : Char) (cs : List Char) (hc : ¬ c = '\n') :
    splitCompleteLines (c :: cs) =
      match splitCompleteLines cs with
      | (l :: ls, rest) => ((c :: l) :: ls, rest)
      | ([], rest) => ([], c :: rest) := by
  simp [splitCompleteLines, if_neg hc]

theorem splitCompleteLines_reconstruct (l : List Char) :
    ((splitCompleteLines l).1.map (· ++ ['\n'])).flatten ++ (splitCompleteLines l).2 = l := by
  induction l with
  | nil => rfl
  | cons c cs ih =>
    by_cases hc : c = '\n'
    · subst hc
      rw [splitCompleteLines_cons_nl]
      simpa using ih
    · rw [splitCompleteLines_cons_ne c cs hc]
      rcases hs : splitCompleteLines cs with ⟨ls, rest⟩
      rw [hs] at ih
      rcases ls with _ | ⟨l0, ls⟩
      · show (([] : List (List Char)).map (· ++ ['\n'])).flatten ++ (c :: rest) = c :: cs
        simp only [List.map_nil, List.flatten_nil, List.nil_append] at ih ⊢
        rw [ih]
      · show (((c :: l0) :: ls).map (· ++ ['\n'])).flatten ++ rest = c :: cs
        simp only [List.map_cons, List.flatten_cons, List.cons_append,
          List.append_assoc] at ih ⊢
        rw [ih]

theorem splitCompleteLines_append (x y : List Char) :
    splitCompleteLines (x ++ y) =
      ((splitCompleteLines x).1 ++ (splitCompleteLines ((splitCompleteLines x).2 ++ y)).1,
       (splitCompleteLines ((splitCompleteLines x).2 ++ y)).2) := by
  induction x with
  | nil => simp [splitCompleteLines]
  | cons c cs ih =>
    by_cases hc : c = '\n'
    · subst hc
      rw [show ('\n' :: cs) ++ y = '\n' :: (cs ++ y) from rfl]
      rw [splitCompleteLines_cons_nl, splitCompleteLines_cons_nl, ih]
      simp [List.cons_append]
    · rw [show (c :: cs) ++ y = c :: (cs ++ y) from rfl]
      rw [splitCompleteLines_cons_ne c (cs ++ y) hc, splitCompleteLines_cons_ne c cs hc, ih]
      rcases hs : splitCompleteLines cs with ⟨ls, rest⟩
      rcases ls with _ | ⟨l0, ls⟩
      · dsimp only
        rw [show (c :: rest) ++ y = c :: (rest ++ y) from rfl,
          splitCompleteLines_cons_ne c (rest ++ y) hc]
        rcases hr : splitCompleteLines (rest ++ y) with ⟨ls2, rest2⟩
        rcases ls2 with _ | ⟨a, as⟩ <;> simp
      · simp [List.cons_append]

theorem feed_from_eq (chunks : List (List Char)) :
    ∀ (buffer : List Char), '\n' ∉ buffer →
      feed_from buffer chunks = listen_step buffer chunks.flatten := by
  induction chunks with
  | nil =>
    intro buffer hb
    simp [feed_from, listen_step, splitCompleteLines_no_newline buffer hb, emit_lines]
  | cons c cs ih =>
    intro buffer hb
    simp only [feed_from, List.flatten]
    rw [show (listen_step buffer c).2 = (splitCompleteLines (buffer ++ c)).2 from rfl]
    rw [ih _ (splitCompleteLines_rest_no_newline _)]
    unfold listen_step
    rw [show buffer ++ (c ++ cs.flatten) = (buffer ++ c) ++ cs.flatten by
      rw [List.append_assoc]]
    rw [splitCompleteLines_append (buffer ++ c) cs.flatten]
    simp [emit_lines, List.filter_append]

/-- Claim C3 (amended): for every character stream and every chunking of
it, the framer emits exactly one message per newline-terminated line
whose stripped content is nonempty — in stream order, none lost, none
duplicated, whitespace-only lines silently dropped — and the trailing
newline-free partial line stays buffered until its newline arrives:
feeding the chunks one at a time equals processing the concatenated
stream, whose completed lines reconstruct the stream exactly. -/
theorem C3_framer_line_per_message (chunks : List (List Char)) :
    feed_chunks chunks =
      (emit_lines (splitCompleteLines chunks.flatten).1,
       (splitCompleteLines chunks.flatten).2) ∧
    ((splitCompleteLines chunks.flatten).1.map (· ++ ['\n'])).flatten ++
        (splitCompleteLines chunks.flatten).2 = chunks.flatten ∧
    '\n' ∉ (splitCompleteLines chunks.flatten).2 ∧
    ∀ l ∈ (splitCompleteLines chunks.flatten).1, '\n' ∉ l := by
  refine ⟨?_, splitCompleteLines_reconstruct _, splitCompleteLines_rest_no_newline _,
    splitCompleteLines_lines_no_newline _⟩
  unfold feed_chunks
  rw [feed_from_eq chunks [] (by simp)]
  rfl

/-- Claim C3 counterexample: a whitespace-only newline-terminated line is
a newline-terminated line that emits no message — the stream `" \n"` in
one chunk has one newline-terminated line but the framer emits zero
messages, refuting "exactly one message per newline-terminated line". -/
theorem C3_counterexample :
    ¬ (feed_chunks [[' ', '\n']]).1.length =
        newline_terminated_line_count (List.flatten [[' ', '\n']]) := by
  decide

/-- A message split mid-line across two read chunks. -/
def chunksC3 : List (List Char) := ["he".data, "llo\nwor".data]

/-- Witness for C3: the split message is reassembled into exactly one
emitted line and the newline-free partial tail stays buffered. -/
theorem C3_framer_line_per_message_witness :
    feed_chunks chunksC3 = (["hello"], "wor".data) ∧ '\n' ∉ "hello".data :=
  ⟨(C3_framer_line_per_message chunksC3).1.trans (by decide),
   (C3_framer_line_per_message chunksC3).2.2.2 "hello".data (by decide)⟩

/-! ## Claims C4 and C7 -/

/-- Claim C4: for every line in one of the three bad shapes — unparseable
JSON, a JSON object without a `type` field, or a JSON object with an
unknown `type` value — `_process_received_data` returns normally (every
exception raised inside its suite is swallowed by the handlers), the line
is silently discarded with no state change and no queue push, and the
receive loop processes the remaining lines exactly as if the bad line had
not been there. -/
theorem C4_bad_lines_never_crash (jsonLoads : String → Except PyExc JVal)
    (st : SessionState) (line : String) (rest : List String)
    (h : badLine jsonLoads line = true) :
    process_received_data jsonLoads st line = Except.ok (st, []) ∧
    process_lines jsonLoads st (line :: rest) = process_lines jsonLoads st rest := by
  have hmain : process_received_data jsonLoads st line = Except.ok (st, []) := by
    unfold badLine at h
    rcases hj : jsonLoads (pyStrip line) with e | v
    · rw [hj] at h
      unfold process_received_data process_received_data_body
      rw [hj]
      cases e <;> rfl
    · rw [hj] at h
      cases v with
      | obj fields =>
        replace h : (match dictGet fields "type" with
          | none => true
          | some t => !(t.isStrVal "welcome" || t.isStrVal "status" ||
              t.isStrVal "box_event" || t.isStrVal "compartment_status")) = true := h
        rcases hd : dictGet fields "type" with _ | t
        · simp [process_received_data, process_received_data_body, containsStrKey, hj, hd]
        · rw [hd] at h
          replace h : (!(t.isStrVal "welcome" || t.isStrVal "status" ||
              t.isStrVal "box_event" || t.isStrVal "compartment_status")) = true := h
          simp only [Bool.not_eq_true', Bool.or_eq_false_iff] at h
          obtain ⟨⟨⟨h1, h2⟩, h3⟩, h4⟩ := h
          simp [process_received_data, process_received_data_body, containsStrKey,
            pySubscript, hj, hd, h1, h2, h3, h4]
      | null => exact Bool.noConfusion h
      | bool b => exact Bool.noConfusion h
      | num n => exact Bool.noConfusion h
      | str s => exact Bool.noConfusion h
      | arr l => exact Bool.noConfusion h
  refine ⟨hmain, ?_⟩
  rcases hpl : process_lines jsonLoads st rest with ⟨st2, ms2⟩
  simp [process_lines, hmain, hpl]

/-- A parser that always raises `JSONDecodeError` (an unparseable line). -/
def jsonLoadsFail : String → Except PyExc JVal :=
  fun _ => .error (.jsonDecodeError "Expecting value")

/-- The session state right after `__init__`. -/
def st0 : SessionState :=
  { ip := none, welcome_info := none, device_boxes := .num 0, last_status := [] }

/-- Witness for C4: an unparseable line is discarded and the loop goes on. -/
theorem C4_bad_lines_never_crash_witness :
    process_received_data jsonLoadsFail st0 "x" = Except.ok (st0, []) ∧
    process_lines jsonLoadsFail st0 ["x", "y"] = process_lines jsonLoadsFail st0 ["y"] :=
  C4_bad_lines_never_crash jsonLoadsFail st0 "x" ["y"] rfl

/-- Claim C7 (amended): a well-formed line of type welcome, status,
box_event or compartment_status makes the dispatcher push exactly one
(type, payload) entry onto the message queue rather than calling the
consumer — except a compartment_status message whose `compartment_id` is
missing or falsy, which is dropped without a push. -/
theorem C7_dispatch_queues_one_entry (jsonLoads : String → Except PyExc JVal)
    (st : SessionState) (line : String) (fields : List (String × JVal))
    (hok : jsonLoads (pyStrip line) = .ok (.obj fields)) :
    (dictGet fields "type" = some (.str "welcome") →
      ∃ st' p, process_received_data jsonLoads st line = .ok (st', [("welcome", p)])) ∧
    (dictGet fields "type" = some (.str "status") →
      ∃ st', process_received_data jsonLoads st line =
        .ok (st', [("status", Payload.json (.obj fields))])) ∧
    (dictGet fields "type" = some (.str "box_event") →
      ∃ st' p, process_received_data jsonLoads st line = .ok (st', [("box_event", p)])) ∧
    (dictGet fields "type" = some (.str "compartment_status") →
      (truthyOpt (dictGet fields "compartment_id") = true →
        ∃ st' p, process_received_data jsonLoads st line =
          .ok (st', [("compartment_status", p)])) ∧
      (truthyOpt (dictGet fields "compartment_id") = false →
        process_received_data jsonLoads st line = .ok (st, []))) := by
  have hwel : process_received_data jsonLoads st line =
      .ok (handle_welcome st fields) →
      ∃ st' p, process_received_data jsonLoads st line = .ok (st', [("welcome", p)]) :=
    fun he => ⟨_, _, he⟩
  have hbox : process_received_data jsonLoads st line =
      .ok (handle_box_event st fields) →
      ∃ st' p, process_received_data jsonLoads st line = .ok (st', [("box_event", p)]) :=
    fun he => ⟨_, _, he⟩
  refine ⟨?_, ?_, ?_, ?_⟩
  · intro hd
    apply hwel
    simp [process_received_data, process_received_data_body, containsStrKey,
      pySubscript, hok, hd, JVal.isStrVal]
  · intro hd
    refine ⟨st, ?_⟩
    show process_received_data jsonLoads st line = .ok (handle_status_report st fields)
    simp [process_received_data, process_received_data_body, containsStrKey,
      pySubscript, hok, hd, JVal.isStrVal]
  · intro hd
    apply hbox
    simp [process_received_data, process_received_data_body, containsStrKey,
      pySubscript, hok, hd, JVal.isStrVal]
  · intro hd
    constructor
    · intro ht
      rcases hcid : dictGet fields "compartment_id" with _ | cid
      · rw [hcid] at ht
        exact absurd ht (by simp [truthyOpt])
      · rw [hcid] at ht
        simp only [truthyOpt] at ht
        have he : process_received_data jsonLoads st line =
            .ok (handle_compartment_status st fields) := by
          simp [process_received_data, process_received_data_body, containsStrKey,
            pySubscript, hok, hd, JVal.isStrVal]
        rw [he]
        unfold handle_compartment_status
        rw [hcid]
        dsimp only
        rw [if_pos ht]
        exact ⟨_, _, rfl⟩
    · intro ht
      rcases hcid : dictGet fields "compartment_id" with _ | cid
      · have he : process_received_data jsonLoads st line =
            .ok (handle_compartment_status st fields) := by
          simp [process_received_data, process_received_data_body, containsStrKey,
            pySubscript, hok, hd, JVal.isStrVal]
        rw [he]
        unfold handle_compartment_status
        rw [hcid]
      · rw [hcid] at ht
        simp only [truthyOpt] at ht
        have he : process_received_data jsonLoads st line =
            .ok (handle_compartment_status st fields) := by
          simp [process_received_data, process_received_data_body, containsStrKey,
            pySubscript, hok, hd, JVal.isStrVal]
        rw [he]
        unfold handle_compartment_status
        rw [hcid]
        dsimp only
        rw [if_neg (by simp [ht])]

/-- A parser that yields a compartment_status object with no
`compartment_id`. -/
def jsonLoadsC7ce : String → Except PyExc JVal :=
  fun _ => .ok (.obj [("type", .str "compartment_status")])

/-- Claim C7 counterexample: a well-formed line whose `type` is
`compartment_status` but which lacks a (truthy) `compartment_id` pushes
zero queue entries, not exactly one. -/
theorem C7_counterexample :
    ¬ (pushesOf jsonLoadsC7ce st0 "m").length = 1 := by
  decide

/-- A parser that yields a welcome object. -/
def jsonLoadsC7w : String → Except PyExc JVal :=
  fun _ => .ok (.obj [("type", .str "welcome"), ("boxes", .num 4)])

/-- Witness for C7: a welcome line pushes exactly one
`("welcome", payload)` entry. -/
theorem C7_dispatch_queues_one_entry_witness :
    ∃ st' p, process_received_data jsonLoadsC7w st0 "m" = .ok (st', [("welcome", p)]) :=
  (C7_dispatch_queues_one_entry jsonLoadsC7w st0 "m"
    [("type", .str "welcome"), ("boxes", .num 4)] rfl).1 rfl

/-! ## Claims C5 and C6 -/

/-- Claim C5: with no responder present — every attempt's wait timing out
— `discover_esp32(timeout=3, max_retries=3)` issues exactly three
broadcast attempts, sleeps the fixed one-second inter-retry delay between
consecutive attempts, and returns the NotFound result `(None, None)`. -/
theorem C5_no_responder_three_attempts :
    discover_esp32 3 [.noReply, .noReply, .noReply] =
      ((none, none),
       [.broadcast 3, .sleepSecs 1, .broadcast 3, .sleepSecs 1, .broadcast 3]) := rfl

/-- A valid discovery reply datagram. -/
def goodReplyC6 : List (String × JVal) :=
  [("device", .str "ESP32-Pillbox"), ("ip", .str "192.168.1.50"), ("port", .num 8080)]

/-- Claim C6 counterexample: a socket-level error on the first attempt
does not surface NotFound immediately — the retry loop sleeps and issues
a further broadcast attempt, which here succeeds, so further retry
attempts are issued after a socket error. -/
theorem C6_counterexample :
    discover_with_retry 3 [.sockError, .datagram goodReplyC6, .noReply] =
      ((some (.str "192.168.1.50"), some (.num 8080)),
       [.sleepSecs 1, .broadcast 3]) := rfl

/-- Claim C6 (amended): a no-reply timeout, a malformed reply and a
socket-level error all make the attempt yield `(None, None)` and all are
retried alike — the socket error is caught by `discover`'s blanket
`except` and does not abort the retry loop; NotFound surfaces only after
the last attempt fails. -/
theorem C6_socket_error_is_retried (timeout : Nat) (e : AttemptEnv)
    (rest : List AttemptEnv)
    (henv : e = .sockError ∨ e = .noReply ∨ e = .malformed) :
    (discover timeout e).1 = (none, none) ∧
    (discover_with_retry timeout (e :: rest)).1 = (discover_with_retry timeout rest).1 := by
  have h1 : (discover timeout e).1 = (none, none) := by
    rcases henv with rfl | rfl | rfl <;> rfl
  refine ⟨h1, ?_⟩
  rcases rest with _ | ⟨r, rs⟩
  · rcases henv with rfl | rfl | rfl <;> rfl
  · rcases henv with rfl | rfl | rfl <;> rfl

/-- Witness for C6: a socket error on the first of two attempts leaves
the final result to the second attempt. -/
theorem C6_socket_error_is_retried_witness :
    (discover 3 .sockError).1 = (none, none) ∧
    (discover_with_retry 3 [.sockError, .noReply]).1 =
      (discover_with_retry 3 [.noReply]).1 :=
  C6_socket_error_is_retried 3 .sockError [.noReply] (Or.inl rfl)

/-! ## Claim C9 -/

/-- Claim C9: when connected, an input with no active schedule (in
particular the empty list) yields the explicit error result
`ERROR / "No active medications to send"` and a non-empty medications
array is never sent empty; when schedules are active, inactive ones are
filtered out, the rest map to the outbound shape, and every note is
truncated to at most 100 characters. -/
theorem C9_schedule_command (is_connected has_socket : Bool)
    (schedules : List SchedDict) :
    (is_connected = true → has_socket = true →
      (∀ s ∈ schedules, s.is_active.getD true = false) →
      send_schedule_config is_connected has_socket schedules =
        .errorResult "ERROR" "No active medications to send") ∧
    (∀ meds, send_schedule_config is_connected has_socket schedules = .sentCommand meds →
      meds ≠ [] ∧
      meds = (schedules.filter fun s => s.is_active.getD true).map build_medication ∧
      ∀ m ∈ meds, m.notes.length ≤ 100) := by
  constructor
  · intro hc hs hin
    subst hc
    subst hs
    have hfil : schedules.filter (fun s => s.is_active.getD true) = [] := by
      rw [List.filter_eq_nil_iff]
      intro a ha
      simp [hin a ha]
    unfold send_schedule_config build_medications
    rw [hfil]
    rfl
  · intro meds hm
    unfold send_schedule_config at hm
    split at hm
    · cases hm
    · dsimp only at hm
      split at hm
      · cases hm
      next hne =>
        injection hm with hm
        subst hm
        refine ⟨?_, rfl, ?_⟩
        · intro hnil
          unfold build_medications at hnil hne
          rw [hnil] at hne
          exact hne rfl
        · intro m hmem
          unfold build_medications at hmem
          obtain ⟨s, hs, rfl⟩ := List.mem_map.1 hmem
          show (pySlice (s.notes.getD "") 100).length ≤ 100
          unfold pySlice
          rw [show (String.mk ((s.notes.getD "").data.take 100)).length
              = ((s.notes.getD "").data.take 100).length from rfl]
          rw [List.length_take]
          exact min_le_left _ _

/-- An active schedule row whose notes are 150 characters long. -/
def longNotesSched : SchedDict :=
  { medication_id := some "M1", times_per_day := some 2, dosage_count := some 1,
    schedule_times := some ["09:00", "21:00"], start_date := some "2024-10-01",
    end_date := some "2024-12-31", notes := some (String.mk (List.replicate 150 'n')),
    is_active := some true }

/-- Witness for C9: the empty input yields the explicit error result, and
one active schedule with long notes is sent non-empty with its note
truncated. -/
theorem C9_schedule_command_witness :
    send_schedule_config true true [] =
      .errorResult "ERROR" "No active medications to send" ∧
    ∃ meds, send_schedule_config true true [longNotesSched] = .sentCommand meds ∧
      meds ≠ [] ∧ ∀ m ∈ meds, m.notes.length ≤ 100 := by
  refine ⟨(C9_schedule_command true true []).1 rfl rfl
    (fun s hs => absurd hs (List.not_mem_nil s)), ?_⟩
  have hsent : send_schedule_config true true [longNotesSched] =
      .sentCommand (build_medications [longNotesSched]) := rfl
  have hb := (C9_schedule_command true true [longNotesSched]).2
    (build_medications [longNotesSched]) hsent
  exact ⟨build_medications [longNotesSched], hsent, hb.1, hb.2.2⟩

end Pillbox
